import Mathlib

/-!
Verification development for the freshmaker rebuild-trigger orchestrator.

The definitions below are shallow embeddings of the Python sources:
fedmsg payloads become a small value type with Python truthiness and
dict lookup (attribute errors surface in Except), the parser registry and
BaseEvent.from_fedmsg (freshmaker/events.py), GitReceiveParser
(freshmaker/parsers/gitreceive.py), and the BrewSignRPMHandler pipeline
(freshmaker/handlers/brew/sign_rpm.py): the ODCS compose polling loop,
the advisory filtering and signing precondition of
_find_images_to_rebuild, the pulp repository id merge, and the
_record_batches persistence step.  External collaborators (Errata, Pulp,
LightBlue, Koji, ODCS) are oracles passed in as parameters, matching the
interface boundary drawn in the specification.
-/

namespace Freshmaker

/-- Model of a fedmsg payload value as the parsers consume it: Python
None, a string, or a dict with string keys.  These are the only shapes
the parsing code distinguishes. -/
inductive PyVal where
  | none : PyVal
  | str : String → PyVal
  | dict : List (String × PyVal) → PyVal

/-- Python exception arising during parsing: attribute access (such as
calling .get) on a value that has no such attribute. -/
inductive PyErr where
  | attributeError : PyErr
deriving DecidableEq

/-- Python truthiness of the modelled values: None, the empty string and
the empty dict are falsy; everything else is truthy. -/
def PyVal.truthy : PyVal → Bool
  | .none => false
  | .str "" => false
  | .str _ => true
  | .dict [] => false
  | .dict (_ :: _) => true

/-- Python dict.get(key): on a dict, the value stored at the key (None
when absent); on any non-dict value (None, a string) Python raises
AttributeError, modelled as an error result. -/
def PyVal.get : PyVal → String → Except PyErr PyVal
  | .dict es, key =>
      .ok (match es.find? (fun p => p.1 == key) with
           | Option.some p => p.2
           | Option.none => PyVal.none)
  | _, _ => .error PyErr.attributeError

/-- Python equality between a payload value and a string literal, as in
the comparison of the commit namespace with the string modules: true only
when the value is a string with equal contents. -/
def PyVal.eqStr : PyVal → String → Bool
  | .str s, t => s == t
  | _, _ => false

/-- Rendering of a value by the Python %s format specifier.  None renders
as the four-letter string None.  A dict would render as its repr; no
payload reaching the format call in the sources carries a dict there, so
the repr is abbreviated. -/
def pyStr : PyVal → String
  | PyVal.none => "None"
  | .str s => s
  | .dict _ => "<dict>"

/-- str.endswith of the Python sources, computed on the character lists
of the two strings. -/
def strEndsWith (s sfx : String) : Bool :=
  sfx.toList.isSuffixOf s.toList

/-- Lexicographic comparison of character lists by code point. -/
def charListLe : List Char → List Char → Bool
  | [], _ => true
  | _ :: _, [] => false
  | a :: as, b :: bs => if a < b then true else if b < a then false else charListLe as bs

/-- Lexicographic order on strings (the order Python sorted would use on
the ASCII identifiers appearing here). -/
def strLe (a b : String) : Bool := charListLe a.toList b.toList

/-- Typed events produced by the registered parsers
(freshmaker/events.py), one constructor per event class, with the fields
of each class constructor.  Payload-derived fields keep the value taken
from the message. -/
inductive Event where
  | moduleBuilt (msg_id module_build_id module_build_state name stream : PyVal)
  | moduleMetadataUpdated (msg_id : PyVal) (scm_url : String) (branch : PyVal)
  | testingEvent (msg_id : PyVal)
  | dockerfileChanged (msg_id : PyVal) (repo_url : String) (ns repo branch rev : PyVal)

/-- One registered fedmsg parser as BaseEvent.from_fedmsg consumes it:
its can_parse predicate and its parse function.  parse may produce no
event (None) and may raise, hence the Except. -/
structure Parser where
  canParse : String → PyVal → Bool
  parse : String → PyVal → Except PyErr (Option Event)

/-- BaseEvent.from_fedmsg (events.py lines 106 to 122): walk the
registered parsers in registration order; skip parsers whose can_parse is
false; for the first parser whose can_parse is true, return the result of
its parse call directly; return None when the walk falls off the end. -/
def from_fedmsg (ps : List Parser) (topic : String) (msg : PyVal) :
    Except PyErr (Option Event) :=
  match ps with
  | [] => .ok Option.none
  | p :: rest =>
      if p.canParse topic msg then p.parse topic msg else from_fedmsg rest topic msg

/-- itertools.product over two lists, in the iteration order Python
uses: the first list varies slowest. -/
def pyProduct {α β : Type} (xs : List α) (ys : List β) : List (α × β) :=
  xs.flatMap fun x => ys.map fun y => (x, y)

/-- Python str.rstrip applied with a dot argument: drop every trailing
dot character. -/
def rstripDot (s : String) : String :=
  String.mk ((s.toList.reverse.dropWhile fun c => c == '.').reverse)

/-- BaseEvent.get_parsed_topics (events.py lines 65 to 78): concatenate
the topic_suffixes of every registered parser (given here as one suffix
list per parser, in registration order), then for every configured topic
pref crossed with every suffix emit the pref with trailing dots stripped,
a dot, and the suffix. -/
def get_parsed_topics (parserSuffixes : List (List String)) (topicPrefs : List String) :
    List String :=
  (pyProduct topicPrefs parserSuffixes.flatten).map fun pc => rstripDot pc.1 ++ "." ++ pc.2

/-- The subscription set as the specification words it, for comparison
with get_parsed_topics: the cross product formatted as the pref, a dot,
and the suffix, with no stripping of the pref. -/
def specSubscriptionTopics (parserSuffixes : List (List String)) (topicPrefs : List String) :
    List String :=
  (pyProduct topicPrefs parserSuffixes.flatten).map fun pc => pc.1 ++ "." ++ pc.2

/-- conf.git_base_url, the GIT_BASE_URL value of conf/config.py. -/
def gitBaseUrl : String := "git://pkgs.fedoraproject.org"

namespace GitReceiveParser

/-- The topic suffixes GitReceiveParser declares (gitreceive.py line 34). -/
def topicSuffixes : List String := ["git.receive"]

/-- GitReceiveParser.can_parse (gitreceive.py lines 36 to 39): false when
the topic ends with none of the declared suffixes, true otherwise.  The
message argument is received but never inspected. -/
def canParse (topic : String) (_msg : PyVal) : Bool :=
  if !(topicSuffixes.any fun s => strEndsWith topic s) then false else true

/-- GitReceiveParser.parse (gitreceive.py lines 41 to 69): read msg_id
and the inner msg value; a falsy inner msg or a falsy commit entry skips
the message (None); for a commit whose namespace equals modules, build
the scm url from git_base_url, the namespace, the repo and the rev and
produce ModuleMetadataUpdated; any other namespace yields None.  A .get
call on a truthy non-dict raises AttributeError, as in Python. -/
def parse (_topic : String) (msg : PyVal) : Except PyErr (Option Event) := do
  let msg_id ← msg.get "msg_id"
  let msg_inner_msg ← msg.get "msg"
  if !msg_inner_msg.truthy then return Option.none
  let commit ← msg_inner_msg.get "commit"
  if !commit.truthy then return Option.none
  let ns ← commit.get "namespace"
  let rev ← commit.get "rev"
  let repo ← commit.get "repo"
  let branch ← commit.get "branch"
  if ns.eqStr "modules" then
    let scm_url := gitBaseUrl ++ "/" ++ pyStr ns ++ "/" ++ pyStr repo ++ ".git?#" ++ pyStr rev
    return Option.some (Event.moduleMetadataUpdated msg_id scm_url branch)
  return Option.none

end GitReceiveParser

/-- GitReceiveParser packaged as a registry entry. -/
def gitReceiveEventParser : Parser :=
  ⟨GitReceiveParser.canParse, GitReceiveParser.parse⟩

/-- A registered parser whose can_parse accepts every topic and whose
parse always returns None (a malformed or irrelevant payload). -/
def alwaysNoneEventParser : Parser :=
  ⟨fun _ _ => true, fun _ _ => .ok Option.none⟩

/-- A registered parser whose can_parse accepts every topic and whose
parse always produces an event. -/
def alwaysSomeEventParser : Parser :=
  ⟨fun _ _ => true, fun _ _ => .ok (Option.some (Event.testingEvent PyVal.none))⟩

/-- The git.receive payload of the worked example: a commit in the
modules namespace for repo foo, branch master, rev abc123. -/
def modulesPushPayload : PyVal :=
  PyVal.dict [("msg", PyVal.dict [("commit", PyVal.dict
    [("namespace", PyVal.str "modules"), ("rev", PyVal.str "abc123"),
     ("repo", PyVal.str "foo"), ("branch", PyVal.str "master")])])]

/-- A payload whose msg entry is present and truthy but is a string, not
a dict. -/
def nonDictMsgPayload : PyVal := PyVal.dict [("msg", PyVal.str "hello")]

/-- One run of the polling loop of BrewSignRPMHandler._prepare_yum_repo
(sign_rpm.py lines 112 to 135) over a finite stream of compose states
fetched from ODCS: the pair of the returned value (the result_repo url
once the compose is done, None on the failure and protocol-error exits)
and the log lines the loop emits, in order.  State 0 and state 1 log and
poll again; state 4 logs the error naming the compose url and returns;
state 2 breaks, logs the repository url and returns it; any other state
logs the unexpected-state error and returns.  An exhausted stream models
a loop still waiting on ODCS. -/
def pollComposeStates (composeUrl resultRepo : String) : List Int → Option String × List String
  | [] => (Option.none, [])
  | s :: rest =>
    if s = 0 then
      ((pollComposeStates composeUrl resultRepo rest).1,
        "Waiting for generating new compose" :: (pollComposeStates composeUrl resultRepo rest).2)
    else if s = 1 then
      ((pollComposeStates composeUrl resultRepo rest).1,
        "ODCS is generating the compose" :: (pollComposeStates composeUrl resultRepo rest).2)
    else if s = 4 then
      (Option.none,
        ["ODCS fails to generate compose: " ++ composeUrl,
         "Please consult ODCS to see what is wrong with it"])
    else if s = 2 then
      (Option.some resultRepo,
        ["ODCS has finished to generate compose. Continue to rebuild",
         "Repo URL containing packages used to rebuild container: " ++ resultRepo])
    else
      (Option.none, ["Got unexpected compose state " ++ toString s ++ " from ODCS."])

/-- Modelled from the spec: freshmaker.types.ArtifactType is not among
the sampled sources; section 3 of the specification lists the artifact
types RPM, MODULE and IMAGE. -/
inductive ArtifactType where
  | RPM
  | MODULE
  | IMAGE
deriving DecidableEq

/-- Modelled from the spec: freshmaker.types.ArtifactBuildState is not
among the sampled sources; section 4.5 lists the build states with
PLANNED the sole initial state. -/
inductive ArtifactBuildState where
  | PLANNED
  | BUILDING
  | DONE
  | FAILED
deriving DecidableEq

/-- One image entry of a batch as _record_batches consumes it
(sign_rpm.py lines 178 to 195): the brew build name, the parent image
brew build name when the parent entry is truthy, and the repository and
commit copied into build_args. -/
structure Image where
  build : String
  parent : Option String
  repository : String
  commit : String
deriving DecidableEq

/-- The build_args blob attached to each recorded build (sign_rpm.py
lines 188 to 192). -/
structure BuildArgs where
  repository : String
  commit : String
  parent : Option String
deriving DecidableEq

/-- One ArtifactBuild row as recorded by _record_batches.  Modelled from
the spec for the part not among the sampled sources: section 4.5 states
that record_build(event, name, type, external_id, depends_on,
initial_state) creates one ArtifactBuild carrying exactly those fields.
depOn is the snapshot (name, batch index, sequence index) identifying the
referenced build at the moment of the lookup; batchIndex and seqIndex
record where in the batch traversal this row was created. -/
structure RecordedBuild where
  name : String
  artifactType : ArtifactType
  externalBuildId : Nat
  depOn : Option (String × Nat × Nat)
  state : ArtifactBuildState
  buildArgs : BuildArgs
  batchIndex : Nat
  seqIndex : Nat
deriving DecidableEq

/-- Traversal state of _record_batches: the builds dict keyed by brew
build name (latest binding first, modelling dict overwrite), the running
sequence counter, and the rows recorded so far in creation order. -/
structure RecState where
  builds : List (String × RecordedBuild)
  seq : Nat
  acc : List RecordedBuild

/-- Lookup in the builds dict: the most recent binding of the name. -/
def lookupBuild (bs : List (String × RecordedBuild)) (n : String) : Option RecordedBuild :=
  (bs.find? fun p => p.1 == n).map Prod.snd

/-- The row record_build creates for one image (sign_rpm.py lines 180 to
192): name from the brew build, type IMAGE, external build id 0, state
PLANNED, depends_on the builds-dict entry of the parent name when present
(None otherwise, exactly the conditional of line 183), build_args from
the repository, commit and parent name. -/
def newBuild (batchIdx : Nat) (st : RecState) (img : Image) : RecordedBuild :=
  { name := img.build
    artifactType := ArtifactType.IMAGE
    externalBuildId := 0
    depOn := (img.parent.bind fun pn => lookupBuild st.builds pn).map
             fun b => (b.name, b.batchIndex, b.seqIndex)
    state := ArtifactBuildState.PLANNED
    buildArgs := ⟨img.repository, img.commit, img.parent⟩
    batchIndex := batchIdx
    seqIndex := st.seq }

/-- Record one image: create its row, bind it in the builds dict under
its name (overwriting any earlier binding), and append it to the rows. -/
def recordImage (batchIdx : Nat) (st : RecState) (img : Image) : RecState :=
  { builds := (img.build, newBuild batchIdx st img) :: st.builds
    seq := st.seq + 1
    acc := st.acc ++ [newBuild batchIdx st img] }

/-- Record the images of one batch, left to right. -/
def recordBatchGo (batchIdx : Nat) (st : RecState) : List Image → RecState
  | [] => st
  | img :: rest => recordBatchGo batchIdx (recordImage batchIdx st img) rest

/-- Record the batches in order, counting the batch index up. -/
def recordBatchesGo (batchIdx : Nat) (st : RecState) : List (List Image) → RecState
  | [] => st
  | b :: rest => recordBatchesGo (batchIdx + 1) (recordBatchGo batchIdx st b) rest

/-- The empty traversal state _record_batches starts from. -/
def initRecState : RecState := ⟨[], 0, []⟩

/-- BrewSignRPMHandler._record_batches (sign_rpm.py lines 169 to 195):
the ArtifactBuild rows persisted for a batch list, in creation order. -/
def recordBatches (batches : List (List Image)) : List RecordedBuild :=
  (recordBatchesGo 0 initRecState batches).acc

/-- An advisory as _find_images_to_rebuild consumes it: its name (fed to
the allow_build whitelist check) and its errata id (fed to the Errata
Tool lookups). -/
structure Advisory where
  name : String
  errata_id : Nat
deriving DecidableEq

/-- The external collaborators of _find_images_to_rebuild, passed as
oracles: the advisories Errata returns for the event, the allow_build
policy verdict per advisory name, the builds_signed verdict per errata
id, the pulp repository ids per errata id, the content sets Pulp returns
for a repository id list, the srpm name of the triggering build, and the
image batches LightBlue returns. -/
structure RebuildEnv where
  advisories : List Advisory
  allowBuild : String → Bool
  buildsSigned : Nat → Bool
  pulpRepositoryIds : Nat → List String
  contentSetsByRepoIds : List String → List String
  srpmName : String
  findImages : String → List String → List (List Image)

/-- The advisory filter of sign_rpm.py lines 204 to 206: keep the
advisories the configuration allows to trigger image rebuilds. -/
def eligibleAdvisories (env : RebuildEnv) : List Advisory :=
  env.advisories.filter fun a => env.allowBuild a.name

/-- A model of the iteration order the Python interpreter gives to
list(set(xs)) on strings: any function returning the elements of its
input without duplicates.  The concrete order depends on the hash seed of
the run, so only these two facts are guaranteed by the code. -/
def IsPySetListModel (σ : List String → List String) : Prop :=
  ∀ xs, (σ xs).Nodup ∧ ∀ x, x ∈ σ xs ↔ x ∈ xs

/-- One admissible set order: deduplication as List.dedup performs it. -/
def pySetDedup : List String → List String := fun xs => xs.dedup

/-- Another admissible set order: the reverse of the first. -/
def pySetDedupRev : List String → List String := fun xs => xs.dedup.reverse

/-- The pulp repository id merge of sign_rpm.py lines 221 to 224:
list(set(chain(*per_advisory_results))), i.e. the concatenation of the
per-advisory result lists passed through the set order of the run. -/
def mergePulpRepoIds (σ : List String → List String)
    (perAdvisory : List (List String)) : List String :=
  σ perAdvisory.flatten

/-- BrewSignRPMHandler._find_images_to_rebuild (sign_rpm.py lines 197 to
240): filter the advisories through allow_build; an empty remainder or
any eligible advisory whose builds are not all signed yields the empty
batch list; otherwise merge the pulp repository ids, resolve content
sets, and return the batches LightBlue reports for the srpm name. -/
def findImagesToRebuild (env : RebuildEnv) (σ : List String → List String) :
    List (List Image) :=
  if (eligibleAdvisories env).isEmpty then []
  else if !((eligibleAdvisories env).all fun a => env.buildsSigned a.errata_id) then []
  else
    env.findImages env.srpmName
      (env.contentSetsByRepoIds
        (mergePulpRepoIds σ ((eligibleAdvisories env).map fun a =>
          env.pulpRepositoryIds a.errata_id)))

/-- An image used to populate concrete environments. -/
def sampleImage : Image := ⟨"img-1", Option.none, "repo1", "c0"⟩

/-- A concrete environment with one eligible advisory whose builds are
not signed, while LightBlue would report a nonempty batch list. -/
def unsignedEnv : RebuildEnv :=
  { advisories := [⟨"RHSA-2020-0001", 1⟩]
    allowBuild := fun _ => true
    buildsSigned := fun _ => false
    pulpRepositoryIds := fun _ => ["p1"]
    contentSetsByRepoIds := fun _ => ["cs1"]
    srpmName := "bash"
    findImages := fun _ _ => [[sampleImage]] }

/-- A base image with no parent. -/
def imageX : Image := ⟨"X", Option.none, "repoX", "c1"⟩

/-- An image whose parent is imageX. -/
def imageY : Image := ⟨"Y", Option.some "X", "repoY", "c2"⟩

/-- A batch list placing a child and its parent in the same batch. -/
def sameBatchPlan : List (List Image) := [[imageX, imageY]]

/-- The row recordBatches creates for imageX in sameBatchPlan. -/
def xRecord : RecordedBuild :=
  { name := "X", artifactType := ArtifactType.IMAGE, externalBuildId := 0
    depOn := Option.none, state := ArtifactBuildState.PLANNED
    buildArgs := ⟨"repoX", "c1", Option.none⟩, batchIndex := 0, seqIndex := 0 }

/-- The row recordBatches creates for imageY in sameBatchPlan. -/
def yRecord : RecordedBuild :=
  { name := "Y", artifactType := ArtifactType.IMAGE, externalBuildId := 0
    depOn := Option.some ("X", 0, 0), state := ArtifactBuildState.PLANNED
    buildArgs := ⟨"repoY", "c2", Option.some "X"⟩, batchIndex := 0, seqIndex := 1 }

/-- The shape every row created by _record_batches has: state PLANNED,
external build id 0, and any depends_on reference naming a row from a
batch index at most its own and a strictly earlier creation position. -/
def BuildOk (r : RecordedBuild) : Prop :=
  r.state = ArtifactBuildState.PLANNED ∧ r.externalBuildId = 0 ∧
    ∀ n bi si, r.depOn = Option.some (n, bi, si) → bi ≤ r.batchIndex ∧ si < r.seqIndex

/-- Invariant of the traversal state while batch batchIdx is being
recorded: every builds-dict entry predates the sequence counter and comes
from a batch index at most batchIdx, and every recorded row is BuildOk. -/
def StOk (batchIdx : Nat) (st : RecState) : Prop :=
  (∀ p ∈ st.builds, p.2.batchIndex ≤ batchIdx ∧ p.2.seqIndex < st.seq) ∧
    ∀ r ∈ st.acc, BuildOk r

lemma lookupBuild_mem {bs : List (String × RecordedBuild)} {n : String}
    {b : RecordedBuild} (h : lookupBuild bs n = Option.some b) :
    ∃ p, p ∈ bs ∧ p.2 = b := by
  unfold lookupBuild at h
  cases hf : bs.find? (fun p => p.1 == n) with
  | none => rw [hf] at h; simp at h
  | some p =>
      rw [hf] at h
      simp only [Option.map_some'] at h
      exact ⟨p, List.mem_of_find?_eq_some hf, Option.some.inj h⟩

lemma newBuild_ok {batchIdx : Nat} {st : RecState} {img : Image}
    (h : ∀ p ∈ st.builds, p.2.batchIndex ≤ batchIdx ∧ p.2.seqIndex < st.seq) :
    BuildOk (newBuild batchIdx st img) := by
  refine ⟨rfl, rfl, ?_⟩
  intro n bi si hdep
  simp only [newBuild] at hdep
  cases hp : img.parent with
  | none => rw [hp] at hdep; simp at hdep
  | some pn =>
      rw [hp, Option.some_bind] at hdep
      cases hl : lookupBuild st.builds pn with
      | none => rw [hl] at hdep; simp at hdep
      | some b =>
          rw [hl] at hdep
          simp only [Option.map_some', Option.some.injEq, Prod.mk.injEq] at hdep
          obtain ⟨p, hpmem, hpb⟩ := lookupBuild_mem hl
          obtain ⟨hble, hslt⟩ := h p hpmem
          rw [hpb] at hble hslt
          obtain ⟨-, hbi, hsi⟩ := hdep
          rw [← hbi, ← hsi]
          exact ⟨hble, hslt⟩

lemma recordImage_stOk {batchIdx : Nat} {st : RecState} {img : Image}
    (h : StOk batchIdx st) : StOk batchIdx (recordImage batchIdx st img) := by
  obtain ⟨hb, ha⟩ := h
  constructor
  · intro p hp
    simp only [recordImage, List.mem_cons] at hp
    rcases hp with rfl | hp
    · exact ⟨Nat.le_refl _, Nat.lt_succ_self _⟩
    · exact ⟨(hb p hp).1, Nat.lt_succ_of_lt (hb p hp).2⟩
  · intro r hr
    simp only [recordImage, List.mem_append, List.mem_singleton] at hr
    rcases hr with hr | rfl
    · exact ha r hr
    · exact newBuild_ok hb

lemma recordBatchGo_stOk {batchIdx : Nat} :
    ∀ (imgs : List Image) (st : RecState), StOk batchIdx st →
      StOk batchIdx (recordBatchGo batchIdx st imgs) := by
  intro imgs
  induction imgs with
  | nil => intro st h; exact h
  | cons img rest ih => intro st h; exact ih _ (recordImage_stOk h)

lemma stOk_mono {i j : Nat} {st : RecState} (hij : i ≤ j) (h : StOk i st) :
    StOk j st :=
  ⟨fun p hp => ⟨Nat.le_trans (h.1 p hp).1 hij, (h.1 p hp).2⟩, h.2⟩

lemma recordBatchesGo_acc_ok :
    ∀ (batches : List (List Image)) (batchIdx : Nat) (st : RecState),
      StOk batchIdx st → ∀ r ∈ (recordBatchesGo batchIdx st batches).acc, BuildOk r := by
  intro batches
  induction batches with
  | nil => intro i st h r hr; exact h.2 r hr
  | cons b rest ih =>
      intro i st h r hr
      exact ih (i + 1) _ (stOk_mono (Nat.le_succ i) (recordBatchGo_stOk b st h)) r hr

lemma stOk_init : StOk 0 initRecState :=
  ⟨fun p hp => absurd hp (List.not_mem_nil p), fun r hr => absurd hr (List.not_mem_nil r)⟩

/-- Claim C4 (counterexample): the claim fails as universally stated.  On
the concrete batch list sameBatchPlan, whose single batch holds imageX
followed by imageY with parent X, _record_batches records the row for Y
with depends_on referencing the row for X from the very same batch index
0, not a strictly earlier one. -/
theorem c4_same_batch_cx :
    (recordBatches sameBatchPlan).map (fun r => (r.name, r.depOn, r.batchIndex)) =
      [("X", Option.none, 0), ("Y", Option.some ("X", 0, 0), 0)] := by decide

/-- Claim C4 (amended): for every batch list, every recorded ArtifactBuild
whose depends_on is set references a build recorded earlier in the
traversal: from a batch index at most its own (never a later batch) and
from a strictly earlier creation position; a reference into the same
batch is possible when the parent occurs earlier in the same batch. -/
theorem c4_dep_batch_order :
    ∀ (batches : List (List Image)) (r : RecordedBuild),
      r ∈ recordBatches batches →
      ∀ n bi si, r.depOn = Option.some (n, bi, si) →
        bi ≤ r.batchIndex ∧ si < r.seqIndex :=
  fun batches r hr n bi si hdep =>
    (recordBatchesGo_acc_ok batches 0 initRecState stOk_init r hr).2.2 n bi si hdep

/-- Witness for the amended claim C4, at the row recorded for imageY in
sameBatchPlan. -/
theorem c4_dep_batch_order_witness :
    yRecord ∈ recordBatches sameBatchPlan ∧
      yRecord.depOn = Option.some ("X", 0, 0) ∧
      0 ≤ yRecord.batchIndex ∧ 0 < yRecord.seqIndex :=
  ⟨by decide, by decide,
    (c4_dep_batch_order sameBatchPlan yRecord (by decide) "X" 0 0 (by decide)).1,
    (c4_dep_batch_order sameBatchPlan yRecord (by decide) "X" 0 0 (by decide)).2⟩

/-- Claim C8: every ArtifactBuild created while persisting a plan is
recorded in the PLANNED state with external build id 0, for every batch
list. -/
theorem c8_planned_zero :
    ∀ (batches : List (List Image)) (r : RecordedBuild),
      r ∈ recordBatches batches →
      r.state = ArtifactBuildState.PLANNED ∧ r.externalBuildId = 0 :=
  fun batches r hr =>
    ⟨(recordBatchesGo_acc_ok batches 0 initRecState stOk_init r hr).1,
     (recordBatchesGo_acc_ok batches 0 initRecState stOk_init r hr).2.1⟩

/-- Witness for claim C8, at the row recorded for imageX in
sameBatchPlan. -/
theorem c8_planned_zero_witness :
    xRecord ∈ recordBatches sameBatchPlan ∧
      xRecord.state = ArtifactBuildState.PLANNED ∧ xRecord.externalBuildId = 0 :=
  ⟨by decide, c8_planned_zero sameBatchPlan xRecord (by decide)⟩

/-- Claim C1 (counterexample): the claim fails as stated.  With two
registered parsers both accepting the topic, the second producing an
event, classification returns None: the first parser matched and its
parse returned None, and from_fedmsg did not continue to the second
parser, although the second alone classifies the same message to an
event. -/
theorem c1_classify_cx :
    Parser.canParse alwaysNoneEventParser "t" (PyVal.dict []) = true ∧
    from_fedmsg [alwaysSomeEventParser] "t" (PyVal.dict []) =
      .ok (Option.some (Event.testingEvent PyVal.none)) ∧
    from_fedmsg [alwaysNoneEventParser, alwaysSomeEventParser] "t" (PyVal.dict []) =
      .ok Option.none :=
  ⟨rfl, rfl, rfl⟩

/-- Claim C1 (amended): for every topic and payload, classify returns
exactly the parse result of the first registered parser whose can_parse
is true, even when that result is None (the remaining parsers are never
consulted), and returns None when no parser can_parse the message. -/
theorem c1_classify_first_match :
    ∀ (ps : List Parser) (topic : String) (msg : PyVal),
      from_fedmsg ps topic msg =
        ((ps.find? fun p => p.canParse topic msg).map fun p => p.parse topic msg).getD
          (.ok Option.none) := by
  intro ps topic msg
  induction ps with
  | nil => rfl
  | cons q rest ih =>
      cases hc : q.canParse topic msg with
      | false =>
          rw [from_fedmsg, if_neg (by simp [hc]),
            List.find?_cons_of_neg (p := fun r => r.canParse topic msg) rest (by simp [hc])]
          exact ih
      | true =>
          rw [from_fedmsg, if_pos hc,
            List.find?_cons_of_pos (p := fun r => r.canParse topic msg) rest hc]
          rfl

/-- Claim C2: the _prepare_yum_repo polling loop maps compose state 0 to
waiting and 1 to generating and keeps polling; on 2 it stops and returns
the result repository url; on 4 it stops with no result and an error log
referencing the compose url; on any other state it stops at once with no
result and the unexpected-state error, never polling further; the stream
0,1,1,2 yields the result repository url and the stream 0,4 yields the
failure referencing the compose url. -/
theorem c2_poll_status_mapping :
    ∀ (url repo : String) (rest : List Int),
      pollComposeStates url repo ((0 : Int) :: rest) =
        ((pollComposeStates url repo rest).1,
          "Waiting for generating new compose" :: (pollComposeStates url repo rest).2) ∧
      pollComposeStates url repo ((1 : Int) :: rest) =
        ((pollComposeStates url repo rest).1,
          "ODCS is generating the compose" :: (pollComposeStates url repo rest).2) ∧
      pollComposeStates url repo ((2 : Int) :: rest) =
        (Option.some repo,
          ["ODCS has finished to generate compose. Continue to rebuild",
           "Repo URL containing packages used to rebuild container: " ++ repo]) ∧
      pollComposeStates url repo ((4 : Int) :: rest) =
        (Option.none,
          ["ODCS fails to generate compose: " ++ url,
           "Please consult ODCS to see what is wrong with it"]) ∧
      (∀ s : Int, s ≠ 0 → s ≠ 1 → s ≠ 2 → s ≠ 4 →
        pollComposeStates url repo (s :: rest) =
          (Option.none, ["Got unexpected compose state " ++ toString s ++ " from ODCS."])) ∧
      (pollComposeStates url repo [0, 1, 1, 2]).1 = Option.some repo ∧
      (pollComposeStates url repo [0, 4]).1 = Option.none ∧
      ("ODCS fails to generate compose: " ++ url) ∈ (pollComposeStates url repo [0, 4]).2 := by
  intro url repo rest
  refine ⟨rfl, rfl, rfl, rfl, ?_, rfl, rfl, ?_⟩
  · intro s h0 h1 h2 h4
    rw [pollComposeStates, if_neg h0, if_neg h1, if_neg h4, if_neg h2]
  · have hlogs : (pollComposeStates url repo [0, 4]).2 =
        ["Waiting for generating new compose",
         "ODCS fails to generate compose: " ++ url,
         "Please consult ODCS to see what is wrong with it"] := rfl
    rw [hlogs]
    exact List.mem_cons_of_mem _ (List.mem_cons_self _ _)

/-- Witness for claim C2, at a concrete unexpected state 3. -/
theorem c2_poll_status_mapping_witness :
    ((3 : Int) ≠ 0 ∧ (3 : Int) ≠ 1 ∧ (3 : Int) ≠ 2 ∧ (3 : Int) ≠ 4) ∧
    pollComposeStates "u" "r" [(3 : Int)] =
      (Option.none, ["Got unexpected compose state " ++ toString (3 : Int) ++ " from ODCS."]) :=
  ⟨⟨by decide, by decide, by decide, by decide⟩,
   (c2_poll_status_mapping "u" "r" []).2.2.2.2.1 3
     (by decide) (by decide) (by decide) (by decide)⟩

/-- Claim C3: whenever at least one eligible advisory exists but some
eligible advisory has unsigned builds, _find_images_to_rebuild returns
the empty batch list, and recording that plan records no builds. -/
theorem c3_unsigned_empty_plan :
    ∀ (env : RebuildEnv) (σ : List String → List String),
      eligibleAdvisories env ≠ [] →
      (∃ a, a ∈ eligibleAdvisories env ∧ env.buildsSigned a.errata_id = false) →
      findImagesToRebuild env σ = [] ∧ recordBatches (findImagesToRebuild env σ) = [] := by
  intro env σ hne hex
  have hall : ((eligibleAdvisories env).all fun a => env.buildsSigned a.errata_id) = false := by
    rcases hex with ⟨a, ha, hfa⟩
    cases hcase : (eligibleAdvisories env).all fun a => env.buildsSigned a.errata_id with
    | false => rfl
    | true =>
        have := List.all_eq_true.mp hcase a ha
        rw [hfa] at this
        exact absurd this (by simp)
  have h1 : (eligibleAdvisories env).isEmpty = false := by
    rw [List.isEmpty_eq_false]
    exact hne
  have hresult : findImagesToRebuild env σ = [] := by
    rw [findImagesToRebuild, h1, hall]
    rfl
  exact ⟨hresult, by rw [hresult]; rfl⟩

/-- Witness for claim C3, at the concrete environment unsignedEnv whose
single eligible advisory has unsigned builds while the image inventory
would report a nonempty batch list. -/
theorem c3_unsigned_empty_plan_witness :
    eligibleAdvisories unsignedEnv ≠ [] ∧ findImagesToRebuild unsignedEnv id = [] :=
  ⟨by decide,
   (c3_unsigned_empty_plan unsignedEnv id (by decide)
     ⟨⟨"RHSA-2020-0001", 1⟩, by decide, rfl⟩).1⟩

lemma pySetDedup_model : IsPySetListModel pySetDedup :=
  fun xs => ⟨xs.nodup_dedup, fun _ => List.mem_dedup⟩

lemma pySetDedupRev_model : IsPySetListModel pySetDedupRev := by
  intro xs
  constructor
  · exact List.nodup_reverse.mpr xs.nodup_dedup
  · intro x
    rw [pySetDedupRev, List.mem_reverse, List.mem_dedup]

/-- Claim C5 (counterexample): the claim fails as stated.  The merge of
the per-advisory pulp repository id lists is list(set(...)): its order is
the set-iteration order of the run, which the code does not fix.  Both
pySetDedup and pySetDedupRev are admissible set orders, yet on the same
per-advisory results they merge to different lists, and the second run
produces a list that is not sorted. -/
theorem c5_merge_cx :
    IsPySetListModel pySetDedup ∧ IsPySetListModel pySetDedupRev ∧
    mergePulpRepoIds pySetDedup [["a"], ["b"]] = ["a", "b"] ∧
    mergePulpRepoIds pySetDedupRev [["a"], ["b"]] = ["b", "a"] ∧
    mergePulpRepoIds pySetDedup [["a"], ["b"]] ≠ mergePulpRepoIds pySetDedupRev [["a"], ["b"]] ∧
    ¬ List.Pairwise (fun x y => strLe x y = true) (mergePulpRepoIds pySetDedupRev [["a"], ["b"]]) :=
  ⟨pySetDedup_model, pySetDedupRev_model, by decide, by decide, by decide, by decide⟩

/-- Claim C5 (amended): for every admissible set order, the merged pulp
repository id list is deduplicated, and its membership is exactly the
union of the per-advisory results; the order, however, is the set order
of the run, so two runs agree only when they share that order (the code
never sorts). -/
theorem c5_merge_dedup :
    ∀ (σ : List String → List String), IsPySetListModel σ →
      ∀ (perAdvisory : List (List String)),
        (mergePulpRepoIds σ perAdvisory).Nodup ∧
        ∀ x, x ∈ mergePulpRepoIds σ perAdvisory ↔ ∃ rs, rs ∈ perAdvisory ∧ x ∈ rs := by
  intro σ hσ rss
  refine ⟨(hσ rss.flatten).1, fun x => ?_⟩
  rw [mergePulpRepoIds, (hσ rss.flatten).2 x]
  simp [List.mem_flatten]

/-- Witness for the amended claim C5, at the set order pySetDedup and
concrete overlapping per-advisory results. -/
theorem c5_merge_dedup_witness :
    IsPySetListModel pySetDedup ∧ (mergePulpRepoIds pySetDedup [["a"], ["a", "b"]]).Nodup :=
  ⟨pySetDedup_model,
   (c5_merge_dedup pySetDedup pySetDedup_model [["a"], ["a", "b"]]).1⟩

/-- Claim C6 (counterexample): the claim fails as stated.  For the
configured topic pref example followed by a dot and a registered suffix
s, the spec formula yields the string with two consecutive dots, but
get_parsed_topics strips the trailing dot of the pref first, so the two
sets differ. -/
theorem c6_topics_cx :
    get_parsed_topics [["s"]] ["example."] = ["example.s"] ∧
    specSubscriptionTopics [["s"]] ["example."] = ["example..s"] ∧
    "example..s" ∉ get_parsed_topics [["s"]] ["example."] :=
  ⟨by decide, by decide, by decide⟩

/-- Claim C6 (amended): for every set of registered parsers and every
configured pref list, the subscription set equals the set of strings
built from each configured pref with its trailing dots stripped, a dot,
and each suffix declared by any registered parser (identical to the
claimed set whenever no configured pref ends with a dot). -/
theorem c6_topics_cross :
    ∀ (parserSuffixes : List (List String)) (topicPrefs : List String) (x : String),
      x ∈ get_parsed_topics parserSuffixes topicPrefs ↔
        ∃ p, p ∈ topicPrefs ∧ ∃ s, (∃ l, l ∈ parserSuffixes ∧ s ∈ l) ∧
          x = rstripDot p ++ "." ++ s := by
  intro sls prefs x
  rw [get_parsed_topics, List.mem_map]
  constructor
  · rintro ⟨⟨p, s⟩, hmem, rfl⟩
    rw [pyProduct, List.mem_flatMap] at hmem
    obtain ⟨p2, hp2, hmap⟩ := hmem
    rw [List.mem_map] at hmap
    obtain ⟨s2, hs2, heq⟩ := hmap
    cases heq
    obtain ⟨l, hl, hsl⟩ := List.mem_flatten.mp hs2
    exact ⟨p, hp2, s, ⟨l, hl, hsl⟩, rfl⟩
  · rintro ⟨p, hp, s, ⟨l, hl, hsl⟩, rfl⟩
    refine ⟨(p, s), ?_, rfl⟩
    rw [pyProduct, List.mem_flatMap]
    exact ⟨p, hp, List.mem_map.mpr ⟨s, List.mem_flatten.mpr ⟨l, hl, hsl⟩, rfl⟩⟩

/-- Claim C7: classifying the git.receive message carrying a commit in
the modules namespace for repo foo, branch master and rev abc123 yields
ModuleMetadataUpdated whose scm url ends with foo.git?#abc123 and whose
branch is master. -/
theorem c7_classify_modules_push :
    from_fedmsg [gitReceiveEventParser] "org.fedoraproject.prod.git.receive"
        modulesPushPayload =
      .ok (Option.some (Event.moduleMetadataUpdated PyVal.none
        "git://pkgs.fedoraproject.org/modules/foo.git?#abc123" (PyVal.str "master"))) ∧
    strEndsWith "git://pkgs.fedoraproject.org/modules/foo.git?#abc123" "foo.git?#abc123" =
      true :=
  ⟨rfl, by decide⟩

/-- Claim C9: GitReceiveParser.can_parse is true exactly when the topic
ends with git.receive, and the payload is never inspected: the verdict is
the same for every payload. -/
theorem c9_canparse_topic_only :
    ∀ (topic : String) (m : PyVal),
      GitReceiveParser.canParse topic m = strEndsWith topic "git.receive" ∧
      ∀ m2 : PyVal, GitReceiveParser.canParse topic m = GitReceiveParser.canParse topic m2 := by
  intro topic m
  constructor
  · cases h : strEndsWith topic "git.receive" with
    | false => simp [GitReceiveParser.canParse, GitReceiveParser.topicSuffixes, h]
    | true => simp [GitReceiveParser.canParse, GitReceiveParser.topicSuffixes, h]
  · intro m2
    rfl

/-- Claim C10 (code bug): on the topic the parser accepts, a payload
whose msg entry is the truthy string hello, hence not a mapping, makes
parse raise AttributeError instead of returning None, contradicting the
comment in the source that a message without a msg dict is skipped; a
payload with no msg entry at all is skipped as documented. -/
theorem c10_msg_nondict_raises :
    GitReceiveParser.canParse "org.fedoraproject.prod.git.receive" nonDictMsgPayload = true ∧
    GitReceiveParser.parse "org.fedoraproject.prod.git.receive" nonDictMsgPayload =
      .error PyErr.attributeError ∧
    GitReceiveParser.parse "org.fedoraproject.prod.git.receive" (PyVal.dict []) =
      .ok Option.none :=
  ⟨by decide, rfl, rfl⟩

end Freshmaker
